import Mathlib

/-!
Shallow embedding of the `WorkPlanner` class from
`src/hax/hax/motr/planner.py` (cortx-hare).

Python objects are modelled as follows: a command (`BaseMessage` instance)
becomes a `Cmd` record carrying its concrete Python class (`PyType`), its
object identity (`cid`, standing for Python `id(command)`), the fid used for
conflict checks, and the mutable `group` slot. The planner's mutable fields
(`state`, `backlog`, `asap_list`) become a `WorkPlanner` record threaded
through pure functions; a `fresh` counter dispenses object identities for
newly created commands. Python `set` of classes becomes a duplicate-free
list of `PyType` with exact (class-identity) membership, mirroring Python
set membership on class objects. Blocking (`Condition.wait`) is modelled by
`get_next_command` returning `none` for one evaluation of its inner
`next_cmd` closure; `notifyAll` in `notify_finished` is modelled as a
boolean output.
-/

namespace Planner

/-- Concrete Python classes of commands that can be handed to the planner,
as imported in planner.py and constructed in server.py. `snsRebalanceStart`
and `snsRepairStart` stand for the concrete SNS operation classes built by
`process_sns_operation`; `other` stands for any further message class. -/
inductive PyType where
  | processEvent
  | anyEntrypointRequest
  | haNvecGetEvent
  | haNvecSetEvent
  | die
  | processHaEvent
  | broadcastHAStates
  | snsOperation
  | snsRebalanceStart
  | snsRepairStart
  | other
  deriving DecidableEq

/-- Modelled from the spec: the class hierarchy of `hax.message` is not under
src/. Per the spec (S4 and the Family C table), `SnsRebalanceStart` and the
other concrete SNS operation messages are subclasses of `SnsOperation`, so
`isinstance(cmd, SnsOperation)` holds for them; the remaining classes are
unrelated. This predicate is that `isinstance` check. -/
def isSnsOperation : PyType → Bool
  | .snsOperation => true
  | .snsRebalanceStart => true
  | .snsRepairStart => true
  | _ => false

/-- A command value: Python object identity `cid`, concrete class `ty`,
the fid payload relevant to conflict checks, and the `group` slot that
`_assign_group` writes. -/
structure Cmd where
  cid : Nat
  ty : PyType
  fid : Nat
  group : Nat
  deriving DecidableEq

/-- planner.py line 33. -/
def MAX_GROUP_ID : Nat := 100000

/-- The `State` dataclass of planner.py. `active_meta` maps the identity of
an active command to the fid of its `CommandMeta`. `next_group_commands`
is the set of concrete classes already added to group `next_group_id`. -/
structure State where
  current_group_id : Nat
  next_group_id : Nat
  active_commands : List Cmd
  active_meta : List (Nat × Nat)
  next_group_commands : List PyType
  is_shutdown : Bool
  deriving DecidableEq

/-- The WorkPlanner object: its `State`, the two deques, and the identity
counter standing for Python object allocation. -/
structure WorkPlanner where
  state : State
  backlog : List Cmd
  asap_list : List Cmd
  fresh : Nat
  deriving DecidableEq

/-- Python `set.add` on a set of classes: membership by class identity. -/
def setAdd (t : PyType) (s : List PyType) : List PyType :=
  if t ∈ s then s else t :: s

/-- `WorkPlanner._create_initial_state`. -/
def _create_initial_state : State :=
  { current_group_id := 0
    next_group_id := 0
    active_commands := []
    active_meta := []
    next_group_commands := []
    is_shutdown := false }

/-- A freshly constructed `WorkPlanner()` with the default state factory. -/
def initPlanner : WorkPlanner :=
  { state := _create_initial_state, backlog := [], asap_list := [], fresh := 0 }

/-- `WorkPlanner._get_increased_group`. -/
def _get_increased_group (current : Nat) : Nat :=
  let new_value := current + 1
  if new_value > MAX_GROUP_ID then 0 else new_value

/-- `WorkPlanner._extract_meta`: a `CommandMeta` (just a fid) exists exactly
for `ProcessEvent` commands. -/
def _extract_meta (c : Cmd) : Option Nat :=
  if c.ty = .processEvent then some c.fid else none

/-- `WorkPlanner._is_allowed_asap`: eligible unless some active meta holds
the same fid. -/
def _is_allowed_asap (st : State) (c : Cmd) : Bool :=
  match _extract_meta c with
  | none => true
  | some f => st.active_meta.all (fun kv => kv.2 != f)

/-- `WorkPlanner._is_allowed`: the command group must be the currently
active group. -/
def _is_allowed (st : State) (c : Cmd) : Bool :=
  c.group == st.current_group_id

/-- `WorkPlanner._add_active_cmd`. -/
def _add_active_cmd (st : State) (c : Cmd) : State :=
  let st1 := { st with active_commands := st.active_commands ++ [c] }
  match _extract_meta c with
  | none => st1
  | some f => { st1 with active_meta := st1.active_meta ++ [(c.cid, f)] }

/-- `WorkPlanner._remove_active_cmd`, keyed by the identity of the finished
command. Modelled from the spec: `LinkedList` (hax.motr.util) is not under
src/; per the spec (section 7), removal of a command not present is silently
ignored, which the filter formulation realises. -/
def _remove_active_cmd (st : State) (key : Nat) : State :=
  { st with
    active_commands := st.active_commands.filter (fun x => x.cid != key)
    active_meta := st.active_meta.filter (fun kv => kv.1 != key) }

/-- `WorkPlanner._inc_group`. -/
def _inc_group (st : State) : State :=
  let cur_group_id := st.current_group_id
  let change_next_group := st.next_group_id == cur_group_id
  let st1 := { st with current_group_id := _get_increased_group cur_group_id }
  if change_next_group then
    { st1 with next_group_id := st1.current_group_id, next_group_commands := [] }
  else st1

/-- `WorkPlanner.notify_finished`, keyed by the identity of the finished
command. The boolean output records whether `notifyAll` was invoked. -/
def notify_finished (p : WorkPlanner) (key : Nat) : WorkPlanner × Bool :=
  let st := _remove_active_cmd p.state key
  if ¬ st.active_commands.isEmpty then ({ p with state := st }, false)
  else if p.backlog.any (fun c => c.group == st.current_group_id) then
    ({ p with state := st }, false)
  else ({ p with state := _inc_group st }, true)

/-- `WorkPlanner._should_increase_group`. The `has(SnsOperation)` check of
the source is Python set membership of the literal class object
`SnsOperation` in the set of recorded concrete classes. -/
def _should_increase_group (st : State) (c : Cmd) : Bool :=
  if st.next_group_commands.isEmpty then false
  else if c.ty = .processEvent then false
  else if c.ty = .haNvecGetEvent then false
  else if c.ty = .haNvecSetEvent then false
  else if c.ty = .anyEntrypointRequest then false
  else if c.ty = .processHaEvent then true
  else if c.ty = .broadcastHAStates then true
  else if isSnsOperation c.ty then st.next_group_commands.contains .snsOperation
  else false

/-- The `join_group` closure of `WorkPlanner._assign_group`: stamps the
command with `next_group_id` and records its concrete class `type(cmd)`. -/
def join_group (st : State) (c : Cmd) : Cmd × State :=
  ({ c with group := st.next_group_id },
   { st with next_group_commands := setAdd c.ty st.next_group_commands })

/-- The `next_group` closure of `WorkPlanner._assign_group`. -/
def next_group (st : State) : State :=
  { st with
    next_group_commands := []
    next_group_id := _get_increased_group st.next_group_id }

/-- Family A of `_assign_group`: the condition of its first `if`. -/
def familyA (t : PyType) : Bool :=
  match t with
  | .anyEntrypointRequest => true
  | .haNvecGetEvent => true
  | .haNvecSetEvent => true
  | .processEvent => true
  | _ => false

/-- `WorkPlanner._assign_group`: returns the stamped command, the `is_asap`
flag and the updated state. -/
def _assign_group (st : State) (c : Cmd) : (Cmd × Bool) × State :=
  if familyA c.ty then
    (({ c with group := st.current_group_id }, true), st)
  else if c.ty = .die then
    let r := join_group st c
    ((r.1, false), r.2)
  else
    let st1 := if _should_increase_group st c then next_group st else st
    let r := join_group st1 c
    ((r.1, false), r.2)

/-- `WorkPlanner.add_command`: builds the command object (fresh identity),
assigns its group and appends it to the chosen deque. -/
def add_command (p : WorkPlanner) (ty : PyType) (fid : Nat) : WorkPlanner :=
  let c0 : Cmd := { cid := p.fresh, ty := ty, fid := fid, group := 0 }
  let r := _assign_group p.state c0
  let p1 := { p with state := r.2, fresh := p.fresh + 1 }
  if r.1.2 then { p1 with asap_list := p1.asap_list ++ [r.1.1] }
  else { p1 with backlog := p1.backlog ++ [r.1.1] }

/-- `WorkPlanner.is_empty`. -/
def is_empty (p : WorkPlanner) : Bool :=
  p.backlog.isEmpty

/-- `WorkPlanner._create_poison`: a fresh `Die` stamped with the currently
active group. -/
def _create_poison (p : WorkPlanner) : Cmd :=
  { cid := p.fresh, ty := .die, fid := 0, group := p.state.current_group_id }

/-- `WorkPlanner.shutdown`. -/
def shutdown (p : WorkPlanner) : WorkPlanner :=
  { p with state := { p.state with is_shutdown := true } }

/-- The backlog half of the `next_cmd` loop body inside
`WorkPlanner.get_next_command`: pop the head, dispatch it if `_is_allowed`,
otherwise push it back to the front (`appendleft`), yielding no command. -/
def get_from_backlog (p : WorkPlanner) : Option Cmd × WorkPlanner :=
  match p.backlog with
  | [] => (none, p)
  | c :: rest =>
    if _is_allowed p.state c then
      (some c, { p with backlog := rest, state := _add_active_cmd p.state c })
    else (none, p)

/-- One evaluation of the `next_cmd` closure of
`WorkPlanner.get_next_command`, together with its state effects. `none`
means `next_cmd` returned `None` and the caller goes on to
`Condition.wait`. On shutdown a poison pill is created (consuming one
object identity) and returned without further state change. -/
def get_next_command (p : WorkPlanner) : Option Cmd × WorkPlanner :=
  if p.state.is_shutdown then
    (some (_create_poison p), { p with fresh := p.fresh + 1 })
  else
    match p.asap_list with
    | [] => get_from_backlog p
    | c :: rest =>
      if _is_allowed_asap p.state c then
        (some c, { p with asap_list := rest, state := _add_active_cmd p.state c })
      else get_from_backlog p

/-- One externally visible planner call, for reachability statements. A
`take` is one successful-or-blocking evaluation of `next_cmd`; `complete`
identifies the finished command by its identity. -/
inductive Op where
  | submit (ty : PyType) (fid : Nat)
  | take
  | complete (key : Nat)
  | drain
  deriving DecidableEq

/-- Apply one operation to the planner. -/
def applyOp (p : WorkPlanner) (op : Op) : WorkPlanner :=
  match op with
  | .submit ty fid => add_command p ty fid
  | .take => (get_next_command p).2
  | .complete key => (notify_finished p key).1
  | .drain => shutdown p

/-- The planner state after a sequence of calls on a fresh planner. -/
def run (ops : List Op) : WorkPlanner :=
  ops.foldl applyOp initPlanner

/-- The relation between the group counters that the code actually
maintains for every reachable state: they coincide whenever the set of
command types recorded for the forming group is empty. -/
def GroupSync (p : WorkPlanner) : Prop :=
  p.state.next_group_commands = [] →
    p.state.next_group_id = p.state.current_group_id

/-- The active_meta entry a command contributes when it becomes active. -/
def metaEntry (c : Cmd) : Option (Nat × Nat) :=
  match _extract_meta c with
  | none => none
  | some f => some (c.cid, f)

/-- Inductive planner invariant behind C7: active_meta corresponds exactly
to the meta entries of the active commands, its conflict keys are
pairwise distinct, and the normal backlog never holds a ProcessEvent. -/
def ConflictInv (p : WorkPlanner) : Prop :=
  p.state.active_meta = p.state.active_commands.filterMap metaEntry ∧
  (p.state.active_meta.map Prod.snd).Nodup ∧
  ∀ c ∈ p.backlog, c.ty ≠ PyType.processEvent

/-! Helper lemmas: which state components each internal operation leaves
unchanged. -/

theorem assign_group_frame (st : State) (c : Cmd) :
    (_assign_group st c).2.current_group_id = st.current_group_id ∧
    (_assign_group st c).2.active_commands = st.active_commands ∧
    (_assign_group st c).2.active_meta = st.active_meta ∧
    (_assign_group st c).2.is_shutdown = st.is_shutdown := by
  unfold _assign_group join_group next_group
  split_ifs <;> exact ⟨rfl, rfl, rfl, rfl⟩

theorem add_active_cmd_frame (st : State) (c : Cmd) :
    (_add_active_cmd st c).current_group_id = st.current_group_id ∧
    (_add_active_cmd st c).next_group_id = st.next_group_id ∧
    (_add_active_cmd st c).next_group_commands = st.next_group_commands ∧
    (_add_active_cmd st c).is_shutdown = st.is_shutdown := by
  unfold _add_active_cmd
  cases _extract_meta c <;> exact ⟨rfl, rfl, rfl, rfl⟩

theorem remove_active_cmd_frame (st : State) (key : Nat) :
    (_remove_active_cmd st key).current_group_id = st.current_group_id ∧
    (_remove_active_cmd st key).next_group_id = st.next_group_id ∧
    (_remove_active_cmd st key).next_group_commands = st.next_group_commands ∧
    (_remove_active_cmd st key).is_shutdown = st.is_shutdown :=
  ⟨rfl, rfl, rfl, rfl⟩

theorem setAdd_ne_nil (t : PyType) (s : List PyType) : setAdd t s ≠ [] := by
  unfold setAdd
  split_ifs with h
  · intro hs; rw [hs] at h; exact absurd h (List.not_mem_nil t)
  · exact List.cons_ne_nil t s

theorem get_increased_group_ne (g : Nat) : _get_increased_group g ≠ g := by
  simp only [_get_increased_group, MAX_GROUP_ID]
  split_ifs <;> omega

theorem get_increased_group_eq_mod (g : Nat) (h : g ≤ MAX_GROUP_ID) :
    _get_increased_group g = (g + 1) % (MAX_GROUP_ID + 1) := by
  simp only [_get_increased_group, MAX_GROUP_ID] at *
  split_ifs <;> omega

theorem get_increased_group_iter (n : Nat) :
    ∀ g, g ≤ MAX_GROUP_ID →
      _get_increased_group^[n] g = (g + n) % (MAX_GROUP_ID + 1) := by
  induction n with
  | zero =>
    intro g h
    simp only [Function.iterate_zero, id_eq, Nat.add_zero]
    simp only [MAX_GROUP_ID] at *
    omega
  | succ n ih =>
    intro g h
    rw [Function.iterate_succ_apply, get_increased_group_eq_mod g h,
        ih ((g + 1) % (MAX_GROUP_ID + 1)) (by simp only [MAX_GROUP_ID]; omega)]
    simp only [MAX_GROUP_ID]
    omega

/-- C8: the group-id successor computes (g+1) mod (MAX_GROUP_ID+1): on the
valid range the result stays in range, the successor of MAX_GROUP_ID is 0,
and MAX_GROUP_ID+1 successive applications return every group id to its
starting value. -/
theorem c8_successor_mod (g : Nat) (h : g ≤ MAX_GROUP_ID) :
    _get_increased_group g = (g + 1) % (MAX_GROUP_ID + 1) ∧
    _get_increased_group g ≤ MAX_GROUP_ID ∧
    _get_increased_group MAX_GROUP_ID = 0 ∧
    _get_increased_group^[MAX_GROUP_ID + 1] g = g := by
  refine ⟨get_increased_group_eq_mod g h, ?_, ?_, ?_⟩
  · rw [get_increased_group_eq_mod g h]
    simp only [MAX_GROUP_ID]
    omega
  · simp only [_get_increased_group, MAX_GROUP_ID]
    norm_num
  · rw [get_increased_group_iter (MAX_GROUP_ID + 1) g h]
    simp only [MAX_GROUP_ID] at *
    omega

/-- Witness for C8 at g = 5. -/
theorem c8_successor_mod_witness :
    (5 : Nat) ≤ MAX_GROUP_ID ∧
    (_get_increased_group 5 = (5 + 1) % (MAX_GROUP_ID + 1) ∧
     _get_increased_group 5 ≤ MAX_GROUP_ID ∧
     _get_increased_group MAX_GROUP_ID = 0 ∧
     _get_increased_group^[MAX_GROUP_ID + 1] 5 = 5) :=
  ⟨by simp only [MAX_GROUP_ID]; omega,
   c8_successor_mod 5 (by simp only [MAX_GROUP_ID]; omega)⟩

/-- C4: is_empty returns true iff the normal backlog is empty; the ASAP
lane, the dispatcher state (hence the active set) and the identity counter
do not influence it. -/
theorem c4_is_empty (p : WorkPlanner) :
    (is_empty p = true ↔ p.backlog = []) ∧
    (∀ st l f,
      is_empty { state := st, backlog := p.backlog, asap_list := l, fresh := f }
        = is_empty p) := by
  constructor
  · simp [is_empty, List.isEmpty_iff]
  · intro st l f
    rfl

/-- C9: drain (shutdown) only sets is_shutdown to true, so it is
idempotent, and no later operation ever resets is_shutdown to false. -/
theorem c9_drain_idempotent :
    (∀ p, shutdown (shutdown p) = shutdown p) ∧
    (∀ p, (shutdown p).backlog = p.backlog ∧
      (shutdown p).asap_list = p.asap_list ∧
      (shutdown p).fresh = p.fresh ∧
      (shutdown p).state = { p.state with is_shutdown := true }) ∧
    (∀ (p : WorkPlanner) (ops : List Op), p.state.is_shutdown = true →
      (ops.foldl applyOp p).state.is_shutdown = true) := by
  refine ⟨fun p => rfl, fun p => ⟨rfl, rfl, rfl, rfl⟩, ?_⟩
  have step : ∀ (p : WorkPlanner) (op : Op), p.state.is_shutdown = true →
      (applyOp p op).state.is_shutdown = true := by
    intro p op h
    cases op with
    | submit ty fid =>
      have hs := (assign_group_frame p.state
        { cid := p.fresh, ty := ty, fid := fid, group := 0 }).2.2.2
      show (add_command p ty fid).state.is_shutdown = true
      simp only [add_command]
      split
      · exact hs.trans h
      · exact hs.trans h
    | take =>
      show (get_next_command p).2.state.is_shutdown = true
      unfold get_next_command
      rw [if_pos h]
      exact h
    | complete key =>
      have hr := (remove_active_cmd_frame p.state key).2.2.2
      show (notify_finished p key).1.state.is_shutdown = true
      simp only [notify_finished]
      split
      · exact hr.trans h
      · split
        · exact hr.trans h
        · show (_inc_group (_remove_active_cmd p.state key)).is_shutdown = true
          simp only [_inc_group]
          split
          · exact hr.trans h
          · exact hr.trans h
    | drain => rfl
  intro p ops h
  induction ops generalizing p with
  | nil => exact h
  | cons op rest ih => exact ih (applyOp p op) (step p op h)

/-- Witness for C9 (third conjunct has hypotheses): after drain, a take and
a submit, is_shutdown is still true. -/
theorem c9_drain_idempotent_witness :
    (shutdown initPlanner).state.is_shutdown = true ∧
    ([Op.take, Op.submit .broadcastHAStates 4].foldl applyOp
        (shutdown initPlanner)).state.is_shutdown = true :=
  ⟨rfl, c9_drain_idempotent.2.2 (shutdown initPlanner)
    [Op.take, Op.submit .broadcastHAStates 4] rfl⟩

/-- C10: ASAP dispatch eligibility never consults the group field of the
candidate nor the group counters of the state (only active_meta), and a
Family A (ASAP) submit leaves next_group_commands and next_group_id
untouched while stamping the command with current_group_id into the ASAP
lane. -/
theorem c10_asap_group_blind :
    (∀ st c g, _is_allowed_asap st { c with group := g } = _is_allowed_asap st c) ∧
    (∀ st st' c, st.active_meta = st'.active_meta →
      _is_allowed_asap st c = _is_allowed_asap st' c) ∧
    (∀ p ty fid, familyA ty = true →
      (add_command p ty fid).state.next_group_commands
          = p.state.next_group_commands ∧
      (add_command p ty fid).state.next_group_id = p.state.next_group_id ∧
      (add_command p ty fid).asap_list = p.asap_list ++
        [{ cid := p.fresh, ty := ty, fid := fid,
           group := p.state.current_group_id }] ∧
      (add_command p ty fid).backlog = p.backlog) := by
  refine ⟨fun st c g => rfl, ?_, ?_⟩
  · intro st st' c h
    unfold _is_allowed_asap
    cases _extract_meta c with
    | none => rfl
    | some f => rw [h]
  · intro p ty fid h
    simp only [add_command, _assign_group, h, if_true]
    exact ⟨trivial, trivial, trivial, trivial⟩

/-- Witness for C10 at a ProcessEvent submit on the fresh planner. -/
theorem c10_asap_group_blind_witness :
    familyA PyType.processEvent = true ∧
    (add_command initPlanner .processEvent 7).state.next_group_commands
      = initPlanner.state.next_group_commands :=
  ⟨rfl, (c10_asap_group_blind.2.2 initPlanner .processEvent 7 rfl).1⟩

/-- C1: evaluation of the code at the failing input. Submitting two
concrete SNS operation commands (SnsRebalanceStart, as in scenario S4):
the first records its concrete class in next_group_commands, yet
_should_increase_group answers false for the second because the `has`
check looks for the literal class SnsOperation in the set, so both
commands land in group 0 and next_group_id never advances — the second
does not open a new group. -/
theorem c1_sns_cogrouping_code_eval :
    isSnsOperation PyType.snsRebalanceStart = true ∧
    (run [Op.submit .snsRebalanceStart 1]).state.next_group_commands
      = [PyType.snsRebalanceStart] ∧
    _should_increase_group (run [Op.submit .snsRebalanceStart 1]).state
      { cid := 1, ty := .snsRebalanceStart, fid := 2, group := 0 } = false ∧
    (run [Op.submit .snsRebalanceStart 1,
          Op.submit .snsRebalanceStart 2]).backlog.map Cmd.group = [0, 0] ∧
    (run [Op.submit .snsRebalanceStart 1,
          Op.submit .snsRebalanceStart 2]).state.next_group_id = 0 := by
  decide

/-- C2 counterexample: after three BroadcastHAStates submissions (each of
the last two closes the forming group), next_group_id is two cyclic steps
ahead of current_group_id, refuting the claimed invariant that it equals
current_group_id or its cyclic successor. -/
theorem c2_counterexample :
    (run [Op.submit .broadcastHAStates 0, Op.submit .broadcastHAStates 0,
          Op.submit .broadcastHAStates 0]).state.current_group_id = 0 ∧
    (run [Op.submit .broadcastHAStates 0, Op.submit .broadcastHAStates 0,
          Op.submit .broadcastHAStates 0]).state.next_group_id = 2 ∧
    ¬ ((2 : Nat) = 0 ∨ (2 : Nat) = _get_increased_group 0) := by
  decide

theorem add_command_state (p : WorkPlanner) (ty : PyType) (fid : Nat) :
    (add_command p ty fid).state =
      (_assign_group p.state
        { cid := p.fresh, ty := ty, fid := fid, group := 0 }).2 := by
  simp only [add_command]
  split
  · rfl
  · rfl

theorem assign_group_tags (st : State) (c : Cmd) :
    ((_assign_group st c).2.next_group_commands = st.next_group_commands ∧
     (_assign_group st c).2.next_group_id = st.next_group_id) ∨
    (_assign_group st c).2.next_group_commands ≠ [] := by
  simp only [_assign_group, join_group, next_group]
  split
  · exact Or.inl ⟨rfl, rfl⟩
  · split
    · exact Or.inr (setAdd_ne_nil _ _)
    · exact Or.inr (setAdd_ne_nil _ _)

theorem get_from_backlog_frame (p : WorkPlanner) :
    (get_from_backlog p).2.state.current_group_id = p.state.current_group_id ∧
    (get_from_backlog p).2.state.next_group_id = p.state.next_group_id ∧
    (get_from_backlog p).2.state.next_group_commands
      = p.state.next_group_commands ∧
    (get_from_backlog p).2.asap_list = p.asap_list := by
  simp only [get_from_backlog]
  split
  · exact ⟨rfl, rfl, rfl, rfl⟩
  · split
    · exact ⟨(add_active_cmd_frame _ _).1, (add_active_cmd_frame _ _).2.1,
        (add_active_cmd_frame _ _).2.2.1, rfl⟩
    · exact ⟨rfl, rfl, rfl, rfl⟩

theorem get_next_command_frame (p : WorkPlanner) :
    (get_next_command p).2.state.current_group_id = p.state.current_group_id ∧
    (get_next_command p).2.state.next_group_id = p.state.next_group_id ∧
    (get_next_command p).2.state.next_group_commands
      = p.state.next_group_commands := by
  simp only [get_next_command]
  split
  · exact ⟨rfl, rfl, rfl⟩
  · split
    · exact ⟨(get_from_backlog_frame p).1, (get_from_backlog_frame p).2.1,
        (get_from_backlog_frame p).2.2.1⟩
    · split
      · exact ⟨(add_active_cmd_frame _ _).1, (add_active_cmd_frame _ _).2.1,
          (add_active_cmd_frame _ _).2.2.1⟩
      · exact ⟨(get_from_backlog_frame p).1, (get_from_backlog_frame p).2.1,
          (get_from_backlog_frame p).2.2.1⟩

theorem notify_finished_cases (p : WorkPlanner) (key : Nat) :
    (notify_finished p key).1.backlog = p.backlog ∧
    (notify_finished p key).1.asap_list = p.asap_list ∧
    (notify_finished p key).1.fresh = p.fresh ∧
    ((notify_finished p key).1.state = _remove_active_cmd p.state key ∨
     (notify_finished p key).1.state
        = _inc_group (_remove_active_cmd p.state key)) := by
  simp only [notify_finished]
  split
  · exact ⟨rfl, rfl, rfl, Or.inl rfl⟩
  · split
    · exact ⟨rfl, rfl, rfl, Or.inl rfl⟩
    · exact ⟨rfl, rfl, rfl, Or.inr rfl⟩

theorem inc_group_cases (st : State) :
    (st.next_group_id = st.current_group_id ∧
      _inc_group st = { st with
        current_group_id := _get_increased_group st.current_group_id
        next_group_id := _get_increased_group st.current_group_id
        next_group_commands := [] }) ∨
    (st.next_group_id ≠ st.current_group_id ∧
      _inc_group st = { st with
        current_group_id := _get_increased_group st.current_group_id }) := by
  simp only [_inc_group]
  split
  · next hcond => exact Or.inl ⟨by simpa using hcond, rfl⟩
  · next hcond => exact Or.inr ⟨by simpa using hcond, rfl⟩

theorem groupSync_step (p : WorkPlanner) (op : Op) (h : GroupSync p) :
    GroupSync (applyOp p op) := by
  cases op with
  | submit ty fid =>
    intro htags
    simp only [applyOp] at htags
    show (add_command p ty fid).state.next_group_id
        = (add_command p ty fid).state.current_group_id
    rw [add_command_state] at htags ⊢
    rcases assign_group_tags p.state
        { cid := p.fresh, ty := ty, fid := fid, group := 0 } with ⟨h1, h2⟩ | hne
    · rw [h1] at htags
      rw [h2, (assign_group_frame p.state _).1]
      exact h htags
    · exact absurd htags hne
  | take =>
    intro htags
    simp only [applyOp] at htags
    show (get_next_command p).2.state.next_group_id
        = (get_next_command p).2.state.current_group_id
    rw [(get_next_command_frame p).2.2] at htags
    rw [(get_next_command_frame p).2.1, (get_next_command_frame p).1]
    exact h htags
  | complete key =>
    intro htags
    simp only [applyOp] at htags
    show (notify_finished p key).1.state.next_group_id
        = (notify_finished p key).1.state.current_group_id
    rcases (notify_finished_cases p key).2.2.2 with hs | hs
    · rw [hs] at htags ⊢
      exact h htags
    · rw [hs] at htags ⊢
      rcases inc_group_cases (_remove_active_cmd p.state key) with
        ⟨heq, hform⟩ | ⟨hne, hform⟩
      · rw [hform]
      · rw [hform] at htags ⊢
        exact absurd (h htags) hne
  | drain => exact h

theorem groupSync_run (ops : List Op) : GroupSync (run ops) := by
  have base : GroupSync initPlanner := fun _ => rfl
  have main : ∀ (l : List Op) (p : WorkPlanner), GroupSync p →
      GroupSync (l.foldl applyOp p) := by
    intro l
    induction l with
    | nil => exact fun p hp => hp
    | cons op rest ih => exact fun p hp => ih (applyOp p op) (groupSync_step p op hp)
  exact main ops initPlanner base

/-- C2 amended: the claimed at-most-one-successor relation between
next_group_id and current_group_id does not hold (each group-closing
submit moves next_group_id one further step); what holds for every
reachable planner state is that the two counters coincide whenever
next_group_commands is empty. -/
theorem c2_group_counters_amended (ops : List Op)
    (h : (run ops).state.next_group_commands = []) :
    (run ops).state.next_group_id = (run ops).state.current_group_id :=
  groupSync_run ops h

/-- Witness for C2 amended: submit one broadcast, dispatch it, complete
it; the group rotates, next_group_commands is cleared and the counters
coincide. -/
theorem c2_group_counters_amended_witness :
    (run [Op.submit .broadcastHAStates 1, Op.take,
          Op.complete 0]).state.next_group_commands = [] ∧
    (run [Op.submit .broadcastHAStates 1, Op.take,
          Op.complete 0]).state.next_group_id
      = (run [Op.submit .broadcastHAStates 1, Op.take,
              Op.complete 0]).state.current_group_id :=
  ⟨by decide, c2_group_counters_amended
    [Op.submit .broadcastHAStates 1, Op.take, Op.complete 0] (by decide)⟩

/-- C3 counterexample: on a drained fresh planner, take returns a Die
command but the active set (and its meta) stays empty — the synthesized
termination command is not recorded as an active command, contrary to the
claim. -/
theorem c3_counterexample :
    (get_next_command (shutdown initPlanner)).1
      = some { cid := 0, ty := .die, fid := 0, group := 0 } ∧
    (get_next_command (shutdown initPlanner)).2.state.active_commands = [] ∧
    (get_next_command (shutdown initPlanner)).2.state.active_meta = [] := by
  decide

/-- C3 amended: when shutting_down is true, every take call synthesizes a
fresh Die command with group = current_group_id and returns it regardless
of the queues, leaving the whole planner state (in particular the active
set, the queues, and the shutting_down flag, so the behaviour repeats on
every subsequent call) unchanged: the termination command is not recorded
in the active set. -/
theorem c3_shutdown_take_amended (p : WorkPlanner)
    (h : p.state.is_shutdown = true) :
    (get_next_command p).1 = some (_create_poison p) ∧
    (_create_poison p).ty = .die ∧
    (_create_poison p).group = p.state.current_group_id ∧
    (get_next_command p).2.state = p.state ∧
    (get_next_command p).2.backlog = p.backlog ∧
    (get_next_command p).2.asap_list = p.asap_list ∧
    (get_next_command p).2.state.is_shutdown = true := by
  unfold get_next_command
  rw [if_pos h]
  exact ⟨rfl, rfl, rfl, rfl, rfl, rfl, h⟩

/-- Witness for C3 amended on a drained planner holding a queued backlog
command: the Die is returned even though the backlog is non-empty. -/
theorem c3_shutdown_take_amended_witness :
    (shutdown (run [Op.submit .broadcastHAStates 3])).state.is_shutdown
      = true ∧
    (get_next_command (shutdown (run [Op.submit .broadcastHAStates 3]))).1
      = some { cid := 1, ty := .die, fid := 0, group := 0 } :=
  ⟨by decide,
    by
      have h := c3_shutdown_take_amended
        (shutdown (run [Op.submit .broadcastHAStates 3])) (by decide)
      exact h.1⟩

theorem gnc_shutdown (p : WorkPlanner) (hsd : p.state.is_shutdown = true) :
    get_next_command p
      = (some (_create_poison p), { p with fresh := p.fresh + 1 }) := by
  unfold get_next_command
  rw [if_pos hsd]

theorem gfb_take (p : WorkPlanner) (c : Cmd) (rest : List Cmd)
    (hb : p.backlog = c :: rest) (hg : c.group = p.state.current_group_id) :
    get_from_backlog p =
      (some c, { p with backlog := rest,
                        state := _add_active_cmd p.state c }) := by
  have hal : _is_allowed p.state c = true := by
    simp [_is_allowed, hg]
  unfold get_from_backlog
  rw [hb]
  exact if_pos hal

theorem gfb_skip (p : WorkPlanner) (c : Cmd) (rest : List Cmd)
    (hb : p.backlog = c :: rest)
    (hg : c.group ≠ p.state.current_group_id) :
    get_from_backlog p = (none, p) := by
  have hal : ¬ (_is_allowed p.state c = true) := by
    simp [_is_allowed, hg]
  unfold get_from_backlog
  rw [hb]
  exact if_neg hal

theorem gfb_nil (p : WorkPlanner) (hb : p.backlog = []) :
    get_from_backlog p = (none, p) := by
  unfold get_from_backlog
  rw [hb]

theorem gnc_asap_take (p : WorkPlanner) (hsd : p.state.is_shutdown = false)
    (c : Cmd) (rest : List Cmd) (ha : p.asap_list = c :: rest)
    (he : _is_allowed_asap p.state c = true) :
    get_next_command p =
      (some c, { p with asap_list := rest,
                        state := _add_active_cmd p.state c }) := by
  unfold get_next_command
  rw [if_neg (by simp [hsd]), ha]
  exact if_pos he

theorem gnc_asap_skip (p : WorkPlanner) (hsd : p.state.is_shutdown = false)
    (c : Cmd) (rest : List Cmd) (ha : p.asap_list = c :: rest)
    (he : _is_allowed_asap p.state c = false) :
    get_next_command p = get_from_backlog p := by
  unfold get_next_command
  rw [if_neg (by simp [hsd]), ha]
  exact if_neg (by simp [he])

theorem gnc_asap_nil (p : WorkPlanner) (hsd : p.state.is_shutdown = false)
    (ha : p.asap_list = []) :
    get_next_command p = get_from_backlog p := by
  unfold get_next_command
  rw [if_neg (by simp [hsd]), ha]

/-- C6: dispatch policy of one evaluation of take when not shutting down.
The ASAP head is examined first and returned when ASAP-eligible; an
ineligible ASAP head stays at the front while the backlog head is
consulted. The backlog head is returned iff its group equals the current
group; an ineligible backlog head stays at the front and nothing is
returned. With no eligible head the evaluation yields no command (the
caller suspends on the condition variable). Any returned command is the
head of one of the two queues: the dispatcher never scans past a head. -/
theorem c6_take_dispatch (p : WorkPlanner) (h : p.state.is_shutdown = false) :
    (∀ c rest, p.asap_list = c :: rest → _is_allowed_asap p.state c = true →
      get_next_command p =
        (some c, { p with asap_list := rest,
                          state := _add_active_cmd p.state c })) ∧
    (∀ c rest, p.asap_list = c :: rest → _is_allowed_asap p.state c = false →
      get_next_command p = get_from_backlog p) ∧
    (p.asap_list = [] → get_next_command p = get_from_backlog p) ∧
    (∀ c rest, p.backlog = c :: rest → c.group = p.state.current_group_id →
      get_from_backlog p =
        (some c, { p with backlog := rest,
                          state := _add_active_cmd p.state c })) ∧
    (∀ c rest, p.backlog = c :: rest → c.group ≠ p.state.current_group_id →
      get_from_backlog p = (none, p)) ∧
    (p.backlog = [] → get_from_backlog p = (none, p)) ∧
    (∀ c, (get_next_command p).1 = some c →
      p.asap_list.head? = some c ∨ p.backlog.head? = some c) := by
  have hfb : ∀ c, (get_from_backlog p).1 = some c →
      p.backlog.head? = some c := by
    intro c hq
    cases hb : p.backlog with
    | nil =>
      rw [gfb_nil p hb] at hq
      exact absurd hq (by simp)
    | cons b rest =>
      by_cases hg : b.group = p.state.current_group_id
      · rw [gfb_take p b rest hb hg] at hq
        simp only [Option.some.injEq] at hq
        simp [hq]
      · rw [gfb_skip p b rest hb hg] at hq
        exact absurd hq (by simp)
  refine ⟨fun c rest ha he => gnc_asap_take p h c rest ha he,
    fun c rest ha he => gnc_asap_skip p h c rest ha he,
    fun ha => gnc_asap_nil p h ha,
    fun c rest hb hg => gfb_take p c rest hb hg,
    fun c rest hb hg => gfb_skip p c rest hb hg,
    fun hb => gfb_nil p hb, ?_⟩
  intro c hc
  cases ha : p.asap_list with
  | nil =>
    rw [gnc_asap_nil p h ha] at hc
    exact Or.inr (hfb c hc)
  | cons a rest =>
    by_cases hal : _is_allowed_asap p.state a = true
    · rw [gnc_asap_take p h a rest ha hal] at hc
      simp only [Option.some.injEq] at hc
      left
      simp [hc]
    · rw [gnc_asap_skip p h a rest ha (by simpa using hal)] at hc
      exact Or.inr (hfb c hc)

/-- Witness for C6 on a planner with an eligible ASAP head. -/
theorem c6_take_dispatch_witness :
    (run [Op.submit .processEvent 9]).state.is_shutdown = false ∧
    (get_next_command (run [Op.submit .processEvent 9])).1
      = some { cid := 0, ty := .processEvent, fid := 9, group := 0 } := by
  have h := c6_take_dispatch (run [Op.submit .processEvent 9]) (by decide)
  refine ⟨by decide, ?_⟩
  have := h.1 { cid := 0, ty := .processEvent, fid := 9, group := 0 } []
    (by decide) (by decide)
  rw [this]

theorem inc_group_frame (st : State) :
    (_inc_group st).active_commands = st.active_commands ∧
    (_inc_group st).active_meta = st.active_meta ∧
    (_inc_group st).is_shutdown = st.is_shutdown ∧
    (_inc_group st).current_group_id
      = _get_increased_group st.current_group_id := by
  simp only [_inc_group]
  split
  · exact ⟨rfl, rfl, rfl, rfl⟩
  · exact ⟨rfl, rfl, rfl, rfl⟩

theorem notify_finished_eq1 (p : WorkPlanner) (key : Nat)
    (h : ¬ (_remove_active_cmd p.state key).active_commands.isEmpty = true) :
    notify_finished p key
      = ({ p with state := _remove_active_cmd p.state key }, false) := by
  simp only [notify_finished]
  rw [if_pos h]

theorem notify_finished_eq2 (p : WorkPlanner) (key : Nat)
    (h1 : (_remove_active_cmd p.state key).active_commands.isEmpty = true)
    (h2 : p.backlog.any (fun c => c.group ==
      (_remove_active_cmd p.state key).current_group_id) = true) :
    notify_finished p key
      = ({ p with state := _remove_active_cmd p.state key }, false) := by
  simp only [notify_finished]
  rw [if_neg (by simp [h1]), if_pos h2]

theorem notify_finished_eq3 (p : WorkPlanner) (key : Nat)
    (h1 : (_remove_active_cmd p.state key).active_commands.isEmpty = true)
    (h2 : p.backlog.any (fun c => c.group ==
      (_remove_active_cmd p.state key).current_group_id) = false) :
    notify_finished p key
      = ({ p with state := _inc_group (_remove_active_cmd p.state key) },
         true) := by
  simp only [notify_finished]
  rw [if_neg (by simp [h1]), if_neg (by simp [h2])]

/-- C5: complete removes exactly the finished command from active and from
active_meta; the current group advances to its cyclic successor precisely
when the active set is then empty and no backlog command belongs to the
current group; when the advance starts from coinciding group counters,
next_group_id follows the new current_group_id and next_group_commands is
cleared; and the waiters are signalled exactly when the group advances. -/
theorem c5_notify_finished (p : WorkPlanner) (key : Nat) :
    ((notify_finished p key).1.state.active_commands
        = p.state.active_commands.filter (fun x => x.cid != key)) ∧
    ((notify_finished p key).1.state.active_meta
        = p.state.active_meta.filter (fun kv => kv.1 != key)) ∧
    ((notify_finished p key).1.state.current_group_id
        = _get_increased_group p.state.current_group_id ↔
      (p.state.active_commands.filter (fun x => x.cid != key) = [] ∧
        ∀ c ∈ p.backlog, c.group ≠ p.state.current_group_id)) ∧
    ((notify_finished p key).2 = true ↔
      (p.state.active_commands.filter (fun x => x.cid != key) = [] ∧
        ∀ c ∈ p.backlog, c.group ≠ p.state.current_group_id)) ∧
    ((p.state.active_commands.filter (fun x => x.cid != key) = [] ∧
        ∀ c ∈ p.backlog, c.group ≠ p.state.current_group_id) →
      p.state.next_group_id = p.state.current_group_id →
      ((notify_finished p key).1.state.next_group_id
          = (notify_finished p key).1.state.current_group_id ∧
        (notify_finished p key).1.state.next_group_commands = [])) := by
  have hax : (_remove_active_cmd p.state key).active_commands
      = p.state.active_commands.filter (fun x => x.cid != key) := rfl
  have hcur : (_remove_active_cmd p.state key).current_group_id
      = p.state.current_group_id := rfl
  have hAdv : ((_remove_active_cmd p.state key).active_commands.isEmpty = true ∧
      p.backlog.any (fun c => c.group ==
        (_remove_active_cmd p.state key).current_group_id) = false) ↔
      (p.state.active_commands.filter (fun x => x.cid != key) = [] ∧
        ∀ c ∈ p.backlog, c.group ≠ p.state.current_group_id) := by
    rw [hcur, hax]
    constructor
    · rintro ⟨h1, h2⟩
      refine ⟨by simpa [List.isEmpty_iff] using h1, ?_⟩
      intro c hcm
      have := List.any_eq_false.mp h2 c hcm
      simpa using this
    · rintro ⟨h1, h2⟩
      refine ⟨by simp [List.isEmpty_iff, h1], ?_⟩
      rw [List.any_eq_false]
      intro c hcm
      simpa using h2 c hcm
  by_cases h1 : (_remove_active_cmd p.state key).active_commands.isEmpty = true
  · by_cases h2 : p.backlog.any (fun c => c.group ==
        (_remove_active_cmd p.state key).current_group_id) = true
    · rw [notify_finished_eq2 p key h1 h2]
      have hnadv : ¬ (p.state.active_commands.filter (fun x => x.cid != key) = [] ∧
          ∀ c ∈ p.backlog, c.group ≠ p.state.current_group_id) := by
        intro hadv
        have := (hAdv.mpr hadv).2
        rw [h2] at this
        cases this
      refine ⟨rfl, rfl, ?_, ?_, ?_⟩
      · exact iff_of_false (fun hx => get_increased_group_ne _ hx.symm) hnadv
      · exact iff_of_false (by simp) hnadv
      · intro hadv _
        exact absurd hadv hnadv
    · have h2f : p.backlog.any (fun c => c.group ==
          (_remove_active_cmd p.state key).current_group_id) = false := by
        simpa using h2
      rw [notify_finished_eq3 p key h1 h2f]
      have hadv : p.state.active_commands.filter (fun x => x.cid != key) = [] ∧
          ∀ c ∈ p.backlog, c.group ≠ p.state.current_group_id :=
        hAdv.mp ⟨h1, h2f⟩
      refine ⟨(inc_group_frame _).1, (inc_group_frame _).2.1, ?_, ?_, ?_⟩
      · exact iff_of_true ((inc_group_frame _).2.2.2) hadv
      · exact iff_of_true rfl hadv
      · intro _ hnext
        rcases inc_group_cases (_remove_active_cmd p.state key) with
          ⟨_, hform⟩ | ⟨hne, hform⟩
        · show (_inc_group (_remove_active_cmd p.state key)).next_group_id
              = (_inc_group (_remove_active_cmd p.state key)).current_group_id
            ∧ (_inc_group (_remove_active_cmd p.state key)).next_group_commands
              = []
          rw [hform]
          exact ⟨rfl, rfl⟩
        · exact absurd hnext hne
  · rw [notify_finished_eq1 p key h1]
    have hne : p.state.active_commands.filter (fun x => x.cid != key) ≠ [] := by
      intro hx
      apply h1
      rw [hax, hx]
      rfl
    refine ⟨rfl, rfl, ?_, ?_, ?_⟩
    · exact iff_of_false (fun hx => get_increased_group_ne _ hx.symm)
        (fun hadv => hne hadv.1)
    · exact iff_of_false (by simp) (fun hadv => hne hadv.1)
    · intro hadv _
      exact absurd hadv.1 hne

/-- Witness for C5: submit one broadcast, take it, then complete it; the
planner signals the waiters (the group advances). -/
theorem c5_notify_finished_witness :
    (notify_finished (run [Op.submit .broadcastHAStates 1, Op.take]) 0).2
      = true :=
  ((c5_notify_finished (run [Op.submit .broadcastHAStates 1, Op.take])
    0).2.2.2.1).mpr (by decide)

theorem assign_group_cmd_ty (st : State) (c : Cmd) :
    (_assign_group st c).1.1.ty = c.ty := by
  simp only [_assign_group, join_group]
  split
  · rfl
  · split
    · rfl
    · rfl

theorem assign_group_is_asap (st : State) (c : Cmd) :
    (_assign_group st c).1.2 = familyA c.ty := by
  simp only [_assign_group, join_group]
  split
  · next hfam => exact hfam.symm
  · next hfam =>
    have : familyA c.ty = false := by simpa using hfam
    rw [this]
    split
    · rfl
    · rfl

theorem add_command_queues (p : WorkPlanner) (ty : PyType) (fid : Nat) :
    (familyA ty = true →
      (add_command p ty fid).backlog = p.backlog ∧
      (add_command p ty fid).asap_list = p.asap_list ++
        [(_assign_group p.state
            { cid := p.fresh, ty := ty, fid := fid, group := 0 }).1.1]) ∧
    (familyA ty = false →
      (add_command p ty fid).backlog = p.backlog ++
        [(_assign_group p.state
            { cid := p.fresh, ty := ty, fid := fid, group := 0 }).1.1] ∧
      (add_command p ty fid).asap_list = p.asap_list) := by
  have hasap := assign_group_is_asap p.state
    { cid := p.fresh, ty := ty, fid := fid, group := 0 }
  constructor
  · intro hf
    simp only [add_command]
    split
    · exact ⟨rfl, rfl⟩
    · next hcond =>
      rw [hasap, hf] at hcond
      exact absurd rfl hcond
  · intro hf
    simp only [add_command]
    split
    · next hcond =>
      rw [hasap, hf] at hcond
      cases hcond
    · exact ⟨rfl, rfl⟩

theorem add_active_cmd_active (st : State) (c : Cmd) :
    (_add_active_cmd st c).active_commands = st.active_commands ++ [c] := by
  unfold _add_active_cmd
  cases _extract_meta c
  · rfl
  · rfl

theorem add_active_cmd_meta (st : State) (c : Cmd) :
    (_add_active_cmd st c).active_meta
      = st.active_meta ++ (metaEntry c).toList := by
  simp only [_add_active_cmd, metaEntry]
  cases h : _extract_meta c
  · simp
  · simp

theorem map_snd_filterMap_metaEntry (l : List Cmd) :
    (l.filterMap metaEntry).map Prod.snd
      = (l.filter (fun c => c.ty == PyType.processEvent)).map Cmd.fid := by
  induction l with
  | nil => rfl
  | cons c t ih =>
    by_cases hp : c.ty = PyType.processEvent
    · simp [metaEntry, _extract_meta, hp, ih]
    · simp [metaEntry, _extract_meta, hp, ih]

theorem filterMap_metaEntry_filter (l : List Cmd) (key : Nat) :
    (l.filter (fun x => x.cid != key)).filterMap metaEntry
      = (l.filterMap metaEntry).filter (fun kv => kv.1 != key) := by
  induction l with
  | nil => rfl
  | cons c t ih =>
    by_cases hc : c.cid = key
    · by_cases hp : c.ty = PyType.processEvent
      · simp [metaEntry, _extract_meta, hc, hp, ih]
      · simp [metaEntry, _extract_meta, hc, hp, ih]
    · by_cases hp : c.ty = PyType.processEvent
      · simp [metaEntry, _extract_meta, hc, hp, ih]
      · simp [metaEntry, _extract_meta, hc, hp, ih]

theorem conflict_preserved_add (st : State) (c : Cmd)
    (hm : st.active_meta = st.active_commands.filterMap metaEntry)
    (hn : (st.active_meta.map Prod.snd).Nodup)
    (he : _is_allowed_asap st c = true) :
    (_add_active_cmd st c).active_meta
        = (_add_active_cmd st c).active_commands.filterMap metaEntry ∧
    ((_add_active_cmd st c).active_meta.map Prod.snd).Nodup := by
  have hact := add_active_cmd_active st c
  have hmet := add_active_cmd_meta st c
  cases hE : _extract_meta c with
  | none =>
    have hme : metaEntry c = none := by simp [metaEntry, hE]
    constructor
    · rw [hmet, hact, List.filterMap_append _ _ metaEntry, hme, hm]
      simp [hme]
    · rw [hmet, hme]
      simpa using hn
  | some f =>
    have hme : metaEntry c = some (c.cid, f) := by simp [metaEntry, hE]
    have hall : ∀ kv ∈ st.active_meta, kv.2 ≠ f := by
      intro kv hkv
      have h0 : st.active_meta.all (fun kv => kv.2 != f) = true := by
        unfold _is_allowed_asap at he
        rw [hE] at he
        exact he
      have := List.all_eq_true.mp h0 kv hkv
      simpa using this
    have hnotin : f ∉ st.active_meta.map Prod.snd := by
      intro hmem
      obtain ⟨kv, hkv, hkv2⟩ := List.mem_map.mp hmem
      exact hall kv hkv hkv2
    constructor
    · rw [hmet, hact, List.filterMap_append _ _ metaEntry, hme, hm]
      simp [hme]
    · rw [hmet, hme]
      simp only [Option.toList_some, List.map_append, List.map_cons,
        List.map_nil]
      rw [List.nodup_append]
      refine ⟨hn, List.nodup_singleton f, ?_⟩
      intro x hx hxf
      apply hnotin
      have : x = f := by simpa using hxf
      rw [← this]
      exact hx

theorem conflict_preserved_remove (st : State) (key : Nat)
    (hm : st.active_meta = st.active_commands.filterMap metaEntry)
    (hn : (st.active_meta.map Prod.snd).Nodup) :
    (_remove_active_cmd st key).active_meta
        = (_remove_active_cmd st key).active_commands.filterMap metaEntry ∧
    ((_remove_active_cmd st key).active_meta.map Prod.snd).Nodup := by
  constructor
  · show st.active_meta.filter (fun kv => kv.1 != key)
        = (st.active_commands.filter
            (fun x => x.cid != key)).filterMap metaEntry
    rw [filterMap_metaEntry_filter, hm]
  · exact hn.sublist ((List.filter_sublist st.active_meta).map Prod.snd)

theorem conflictInv_step (p : WorkPlanner) (op : Op) (h : ConflictInv p) :
    ConflictInv (applyOp p op) := by
  obtain ⟨hm, hn, hbk⟩ := h
  cases op with
  | submit ty fid =>
    show ConflictInv (add_command p ty fid)
    have hst := add_command_state p ty fid
    have hfr := assign_group_frame p.state
      { cid := p.fresh, ty := ty, fid := fid, group := 0 }
    refine ⟨?_, ?_, ?_⟩
    · rw [hst, hfr.2.2.1, hfr.2.1]
      exact hm
    · rw [hst, hfr.2.2.1]
      exact hn
    · intro c hc
      by_cases hf : familyA ty = true
      · rw [((add_command_queues p ty fid).1 hf).1] at hc
        exact hbk c hc
      · have hf2 : familyA ty = false := by simpa using hf
        rw [((add_command_queues p ty fid).2 hf2).1] at hc
        rcases List.mem_append.mp hc with hm2 | hm2
        · exact hbk c hm2
        · have hc1 : c = (_assign_group p.state
              { cid := p.fresh, ty := ty, fid := fid, group := 0 }).1.1 := by
            simpa using hm2
          rw [hc1, assign_group_cmd_ty]
          show ty ≠ PyType.processEvent
          intro hPE
          rw [hPE] at hf2
          simp [familyA] at hf2
  | take =>
    show ConflictInv ((get_next_command p).2)
    by_cases hsd : p.state.is_shutdown = true
    · rw [gnc_shutdown p hsd]
      exact ⟨hm, hn, hbk⟩
    · have hsd2 : p.state.is_shutdown = false := by simpa using hsd
      have hback : ConflictInv ((get_from_backlog p).2) := by
        cases hb : p.backlog with
        | nil =>
          rw [gfb_nil p hb]
          exact ⟨hm, hn, hbk⟩
        | cons b rest =>
          by_cases hg : b.group = p.state.current_group_id
          · rw [gfb_take p b rest hb hg]
            have hbPE : b.ty ≠ PyType.processEvent := by
              apply hbk
              rw [hb]
              exact List.mem_cons_self b rest
            have hE : _extract_meta b = none := by
              unfold _extract_meta
              rw [if_neg hbPE]
            have he : _is_allowed_asap p.state b = true := by
              unfold _is_allowed_asap
              rw [hE]
            have hpres := conflict_preserved_add p.state b hm hn he
            refine ⟨hpres.1, hpres.2, ?_⟩
            intro c hc
            apply hbk
            rw [hb]
            exact List.mem_cons_of_mem b hc
          · rw [gfb_skip p b rest hb hg]
            exact ⟨hm, hn, hbk⟩
      cases ha : p.asap_list with
      | nil =>
        rw [gnc_asap_nil p hsd2 ha]
        exact hback
      | cons a rest =>
        by_cases hal : _is_allowed_asap p.state a = true
        · rw [gnc_asap_take p hsd2 a rest ha hal]
          have hpres := conflict_preserved_add p.state a hm hn hal
          exact ⟨hpres.1, hpres.2, hbk⟩
        · rw [gnc_asap_skip p hsd2 a rest ha (by simpa using hal)]
          exact hback
  | complete key =>
    show ConflictInv ((notify_finished p key).1)
    have hpres := conflict_preserved_remove p.state key hm hn
    have hbk2 : ∀ c ∈ (notify_finished p key).1.backlog,
        c.ty ≠ PyType.processEvent := by
      rw [(notify_finished_cases p key).1]
      exact hbk
    rcases (notify_finished_cases p key).2.2.2 with hs | hs
    · exact ⟨by rw [hs]; exact hpres.1, by rw [hs]; exact hpres.2, hbk2⟩
    · refine ⟨?_, ?_, hbk2⟩
      · rw [hs, (inc_group_frame _).2.1, (inc_group_frame _).1]
        exact hpres.1
      · rw [hs, (inc_group_frame _).2.1]
        exact hpres.2
  | drain =>
    exact ⟨hm, hn, hbk⟩

theorem conflictInv_run (ops : List Op) : ConflictInv (run ops) := by
  have base : ConflictInv initPlanner :=
    ⟨rfl, List.nodup_nil, by intro c hc; cases hc⟩
  have main : ∀ (l : List Op) (p : WorkPlanner), ConflictInv p →
      ConflictInv (l.foldl applyOp p) := by
    intro l
    induction l with
    | nil => exact fun p hp => hp
    | cons op rest ih =>
      exact fun p hp => ih (applyOp p op) (conflictInv_step p op hp)
  exact main ops initPlanner base

/-- C7: for every sequence of planner calls, no two commands in the
active set carry the same conflict key (the fid of a ProcessEvent); a
candidate without a conflict key is always ASAP-eligible; a ProcessEvent
candidate is ASAP-eligible iff no active_meta entry holds an equal fid. -/
theorem c7_active_conflict_free :
    (∀ ops : List Op,
      (((run ops).state.active_commands.filter
          (fun c => c.ty == PyType.processEvent)).map Cmd.fid).Nodup) ∧
    (∀ (st : State) (c : Cmd), _extract_meta c = none →
      _is_allowed_asap st c = true) ∧
    (∀ (st : State) (c : Cmd), c.ty = PyType.processEvent →
      (_is_allowed_asap st c = true ↔
        ∀ kv ∈ st.active_meta, kv.2 ≠ c.fid)) := by
  refine ⟨?_, ?_, ?_⟩
  · intro ops
    obtain ⟨hm, hn, _⟩ := conflictInv_run ops
    rw [← map_snd_filterMap_metaEntry, ← hm]
    exact hn
  · intro st c hE
    unfold _is_allowed_asap
    rw [hE]
  · intro st c hPE
    have hE : _extract_meta c = some c.fid := by
      unfold _extract_meta
      rw [if_pos hPE]
    unfold _is_allowed_asap
    rw [hE]
    show st.active_meta.all (fun kv => kv.2 != c.fid) = true ↔ _
    rw [List.all_eq_true]
    constructor
    · intro hall kv hkv
      simpa using hall kv hkv
    · intro hall kv hkv
      simpa using hall kv hkv

/-- Witness for C7: two same-fid ProcessEvents with two take calls (the
second take finds the head conflicting and dispatches nothing); the
active conflict keys stay duplicate-free. -/
theorem c7_active_conflict_free_witness :
    ((((run [Op.submit .processEvent 5, Op.take, Op.submit .processEvent 5,
        Op.take]).state.active_commands.filter
          (fun c => c.ty == PyType.processEvent)).map Cmd.fid)).Nodup :=
  c7_active_conflict_free.1 [Op.submit .processEvent 5, Op.take,
    Op.submit .processEvent 5, Op.take]

end Planner
